import Mathlib

/-!
Verification of the audio filter design and application engine of
`week11_audio_filters` against its natural-language specification.

The source is Python (numpy/scipy).  Finite-precision floats are modelled by
exact real arithmetic; Python `int` by `ℤ`/`ℕ`; exceptions by `Option`/`Except`.
Library calls made by the repository (`np.convolve`, `scipy.signal.sosfilt`,
`scipy.signal.firwin`, `scipy.signal.kaiserord`, `scipy.signal.butter`,
`scipy.signal.cheby1`) are embedded from their documented semantics, since the
repository delegates those steps to the numerics library.
-/

namespace AudioFilters

noncomputable section

open scoped Classical

/-- One second-order IIR section, six stored coefficients
`(b0, b1, b2, a0, a1, a2)` — one row of the `sos` arrays produced in
`src/design_iir.py`. -/
structure Biquad where
  b0 : ℝ
  b1 : ℝ
  b2 : ℝ
  a0 : ℝ
  a1 : ℝ
  a2 : ℝ

/-! ## Application engine (`main.py`) — IIR side

`apply_iir(signal, sos) = sosfilt(sos, signal)`.  `scipy.signal.sosfilt`
validates that every stored `a0` is `1` and then runs each section as a
transposed direct-form-II recursion with a per-section two-sample delay line
initialised to zero, feeding the output of each section into the next section. -/

/-- One section of `scipy.signal.sosfilt`: the transposed direct-form-II
recursion `y = b0*x + z1` with delay-line updates `z1 := b1*x - a1*y + z2`
and `z2 := b2*x - a2*y`,
run along the whole signal from a given delay-line state. -/
def biquadRun (s : Biquad) : ℝ × ℝ → List ℝ → List ℝ
  | _, [] => []
  | z, x :: xs =>
      let y := s.b0 * x + z.1
      y :: biquadRun s (s.b1 * x - s.a1 * y + z.2, s.b2 * x - s.a2 * y) xs

/-- Model of `scipy.signal.sosfilt(sos, x)` after validation: run the sections in
order, each with a zero-initialised delay line, output of one section feeding
the next. -/
def sosfilt (sos : List Biquad) (x : List ℝ) : List ℝ :=
  sos.foldl (fun sig s => biquadRun s (0, 0) sig) x

/-- From `main.py`: `apply_iir(signal, sos) = np.asarray(sosfilt(sos, signal))`. -/
def apply_iir (signal : List ℝ) (sos : List Biquad) : List ℝ :=
  sosfilt sos signal

/-- The validity check `scipy.signal.sosfilt` performs on its input
(`_validate_sos`): the cascade is non-empty and every stored `a0` equals 1. -/
def validSOS (sos : List Biquad) : Prop :=
  sos ≠ [] ∧ ∀ s ∈ sos, s.a0 = 1

/-- Pointwise linear combination `a*x + b*y` of two signals. -/
def lincomb (a b : ℝ) (xs ys : List ℝ) : List ℝ :=
  List.zipWith (fun u v => a * u + b * v) xs ys

theorem biquadRun_length (s : Biquad) :
    ∀ (z : ℝ × ℝ) (xs : List ℝ), (biquadRun s z xs).length = xs.length := by
  intro z xs
  induction xs generalizing z with
  | nil => rfl
  | cons x xs ih => simp [biquadRun, ih]

theorem lincomb_length (a b : ℝ) (xs ys : List ℝ) :
    (lincomb a b xs ys).length = min xs.length ys.length := by
  simp [lincomb]

theorem biquadRun_zero_signal (s : Biquad) :
    ∀ n : ℕ, biquadRun s (0, 0) (List.replicate n 0) = List.replicate n 0 := by
  intro n
  induction n with
  | zero => rfl
  | succ n ih =>
      simp only [List.replicate_succ, biquadRun, mul_zero, add_zero, zero_add,
        sub_zero, zero_sub, neg_zero]
      rw [ih]

theorem biquadRun_lin (s : Biquad) (a b : ℝ) :
    ∀ (xs ys : List ℝ) (p q : ℝ × ℝ), xs.length = ys.length →
      biquadRun s (a * p.1 + b * q.1, a * p.2 + b * q.2) (lincomb a b xs ys)
        = lincomb a b (biquadRun s p xs) (biquadRun s q ys) := by
  intro xs
  induction xs with
  | nil =>
      intro ys p q h
      cases ys with
      | nil => rfl
      | cons y ys => simp at h
  | cons x xs ih =>
      intro ys p q h
      cases ys with
      | nil => simp at h
      | cons y ys =>
          simp only [List.length_cons, Nat.succ_inj] at h
          simp only [lincomb, List.zipWith_cons_cons, biquadRun]
          refine congrArg₂ List.cons (by ring) ?_
          have hz1 : s.b1 * (a * x + b * y) - s.a1 * (s.b0 * (a * x + b * y)
                + (a * p.1 + b * q.1)) + (a * p.2 + b * q.2)
              = a * (s.b1 * x - s.a1 * (s.b0 * x + p.1) + p.2)
                + b * (s.b1 * y - s.a1 * (s.b0 * y + q.1) + q.2) := by ring
          have hz2 : s.b2 * (a * x + b * y) - s.a2 * (s.b0 * (a * x + b * y)
                + (a * p.1 + b * q.1))
              = a * (s.b2 * x - s.a2 * (s.b0 * x + p.1))
                + b * (s.b2 * y - s.a2 * (s.b0 * y + q.1)) := by ring
          rw [hz1, hz2]
          exact ih ys (s.b1 * x - s.a1 * (s.b0 * x + p.1) + p.2,
              s.b2 * x - s.a2 * (s.b0 * x + p.1))
            (s.b1 * y - s.a1 * (s.b0 * y + q.1) + q.2,
              s.b2 * y - s.a2 * (s.b0 * y + q.1)) h

/-- C5: `apply_iir` of an all-zero signal of length `n` through any valid SOS
cascade (per-section state zero-initialised at the start of the call) is the
all-zero signal of length `n`. -/
theorem apply_iir_zero_signal (sos : List Biquad) (h : validSOS sos) (n : ℕ) :
    apply_iir (List.replicate n 0) sos = List.replicate n 0 := by
  clear h
  unfold apply_iir sosfilt
  induction sos with
  | nil => rfl
  | cons s rest ih =>
      simp only [List.foldl_cons]
      rw [biquadRun_zero_signal]
      exact ih

/-- Witness for C5 at a concrete valid one-section cascade and `n = 2`. -/
theorem apply_iir_zero_signal_witness :
    validSOS [⟨1, 0, 0, 1, 0, 0⟩] ∧
      apply_iir (List.replicate 2 0) [⟨1, 0, 0, 1, 0, 0⟩] = List.replicate 2 0 := by
  have hv : validSOS [(⟨1, 0, 0, 1, 0, 0⟩ : Biquad)] := by
    constructor
    · simp
    · intro s hs
      rw [List.mem_singleton] at hs
      rw [hs]
  exact ⟨hv, apply_iir_zero_signal _ hv 2⟩

/-- C10: `apply_iir` is linear: on equal-length signals it maps `a*x + b*y`
to `a*apply_iir(x) + b*apply_iir(y)` for every cascade, over the exact real
arithmetic of the embedding. -/
theorem apply_iir_linear (sos : List Biquad) (a b : ℝ) (xs ys : List ℝ)
    (h : xs.length = ys.length) :
    apply_iir (lincomb a b xs ys) sos
      = lincomb a b (apply_iir xs sos) (apply_iir ys sos) := by
  unfold apply_iir sosfilt
  induction sos generalizing xs ys with
  | nil => rfl
  | cons s rest ih =>
      simp only [List.foldl_cons]
      have h0 : biquadRun s (0, 0) (lincomb a b xs ys)
          = lincomb a b (biquadRun s (0, 0) xs) (biquadRun s (0, 0) ys) := by
        have := biquadRun_lin s a b xs ys (0, 0) (0, 0) h
        simpa using this
      rw [h0]
      exact ih _ _ (by rw [biquadRun_length, biquadRun_length, h])

/-! ## FIR coefficient designer (`src/design_fir.py`)

`bandstop(f_low, f_high, fs, numtaps, beta)` calls
`scipy.signal.firwin(numtaps, [f_low, f_high], window=("kaiser", beta),
pass_zero=True, fs=fs)`; `notch` re-expresses its band around a centre
frequency and delegates to `bandstop`.  `firwin` is embedded from its
documented windowed-sinc construction for this two-cutoff, `pass_zero=True`,
`scale=True` configuration. -/

/-- Model of `np.sinc`: the normalised sinc function `sin(pi x)/(pi x)`, `1` at `0`. -/
def npSinc (x : ℝ) : ℝ :=
  if x = 0 then 1 else Real.sin (Real.pi * x) / (Real.pi * x)

/-- The modified Bessel function of the first kind `I0`, via its power
series — the kernel of the Kaiser window used by `firwin`. -/
def besselI0 (x : ℝ) : ℝ :=
  tsum fun k : ℕ => (x / 2) ^ (2 * k) / ((Nat.factorial k : ℝ)) ^ 2

/-- Sample `k` of the symmetric Kaiser window of length `numtaps` and shape
`beta`, as built by `scipy.signal.get_window(("kaiser", beta), numtaps)`. -/
def kaiserWindow (numtaps : ℕ) (beta : ℝ) (k : ℕ) : ℝ :=
  let alpha := ((numtaps : ℝ) - 1) / 2
  besselI0 (beta * Real.sqrt (1 - (((k : ℝ) - alpha) / alpha) ^ 2))
    / besselI0 beta

/-- Tap `k` of the unscaled `firwin` kernel for cutoffs `[f_low, f_high]`
with `pass_zero=True`: the band list is `[(0, f_low/nyq), (f_high/nyq, 1)]`,
each band `(left, right)` contributing
`right*sinc(right*m) - left*sinc(left*m)` at `m = k - (numtaps-1)/2`,
the sum then multiplied by the Kaiser window. -/
def firwinBandstopRaw (numtaps : ℕ) (f_low f_high fs beta : ℝ) (k : ℕ) : ℝ :=
  let nyq := fs / 2
  let c1 := f_low / nyq
  let c2 := f_high / nyq
  let m := (k : ℝ) - ((numtaps : ℝ) - 1) / 2
  (c1 * npSinc (c1 * m) - 0 * npSinc (0 * m)
      + (1 * npSinc (1 * m) - c2 * npSinc (c2 * m)))
    * kaiserWindow numtaps beta k

/-- From `src/design_fir.py`: `bandstop(f_low, f_high, fs, numtaps, beta)` —
`firwin` with two cutoffs and `pass_zero=True`; since the first band starts
at DC, `scale=True` divides the kernel by its sum. -/
def bandstop (f_low f_high fs : ℝ) (numtaps : ℕ) (beta : ℝ) : List ℝ :=
  let h := (List.range numtaps).map (firwinBandstopRaw numtaps f_low f_high fs beta)
  let s := h.sum
  h.map fun t => t / s

/-- From `src/design_fir.py`: `notch(center_freq, bandwidth, fs, numtaps, beta)` —
delegates to `bandstop` with band edges `center ± bandwidth/2`. -/
def notch (center_freq bandwidth fs : ℝ) (numtaps : ℕ) (beta : ℝ) : List ℝ :=
  bandstop (center_freq - bandwidth / 2) (center_freq + bandwidth / 2)
    fs numtaps beta

/-- C6: the FIR `notch(center, bandwidth, fs, numtaps, beta)` kernel is
exactly `bandstop(center - bandwidth/2, center + bandwidth/2, fs, numtaps,
beta)`. -/
theorem notch_eq_bandstop (center_freq bandwidth fs : ℝ) (numtaps : ℕ)
    (beta : ℝ) :
    notch center_freq bandwidth fs numtaps beta
      = bandstop (center_freq - bandwidth / 2) (center_freq + bandwidth / 2)
          fs numtaps beta := rfl

/-- Model of `scipy.signal.kaiserord(ripple, width)`, numtaps component: raises
`ValueError` when `|ripple| < 8` and overflows (float `inf` to `int`) when
`width = 0` — both modelled as `none`; otherwise returns
`ceil((|ripple| - 7.95) / 2.285 / (pi * width) + 1)`. -/
def kaiserord_numtaps (ripple width : ℝ) : Option ℤ :=
  let A := |ripple|
  if A < 8 then none
  else if width = 0 then none
  else some (Int.ceil ((A - 7.95) / 2.285 / (Real.pi * width) + 1))

/-- From `src/design_fir.py`: `adaptive_numtaps(transition_width, fs,
attenuation_db)` — Kaiser order estimate at normalised width
`transition_width / (0.5 * fs)`, bumped to the next integer when even. -/
def adaptive_numtaps (transition_width fs attenuation_db : ℝ) : Option ℤ :=
  (kaiserord_numtaps attenuation_db (transition_width / (0.5 * fs))).map
    fun numtaps => if numtaps % 2 = 0 then numtaps + 1 else numtaps

/-- C7: whenever `adaptive_numtaps` returns, the result is odd, and whenever
the underlying Kaiser estimate is even the result is that estimate plus one. -/
theorem adaptive_numtaps_odd (transition_width fs attenuation_db : ℝ)
    (n : ℤ)
    (h : adaptive_numtaps transition_width fs attenuation_db = some n) :
    Odd n ∧ ∀ m : ℤ,
      kaiserord_numtaps attenuation_db (transition_width / (0.5 * fs)) = some m →
      m % 2 = 0 → n = m + 1 := by
  unfold adaptive_numtaps at h
  rw [Option.map_eq_some'] at h
  obtain ⟨m, hm, hfm⟩ := h
  constructor
  · by_cases hpar : m % 2 = 0
    · rw [if_pos hpar] at hfm
      rw [← hfm]
      exact (Int.even_iff.mpr hpar).add_one
    · rw [if_neg hpar] at hfm
      rw [← hfm]
      rw [Int.odd_iff]
      rcases Int.emod_two_eq m with h0 | h1
      · exact absurd h0 hpar
      · exact h1
  · intro m' hm' hpar
    rw [hm] at hm'
    have : m = m' := Option.some.inj hm'
    subst this
    rw [if_pos hpar] at hfm
    exact hfm.symm

/-- Witness for C7 at a concrete input for which the Kaiser estimate is the
even number 2, so the returned tap count is 3. -/
theorem adaptive_numtaps_odd_witness :
    adaptive_numtaps (52.05 / (2.285 * Real.pi)) 2 60 = some 3 ∧ Odd (3 : ℤ) := by
  have hpi := Real.pi_pos
  have habs : |(60 : ℝ)| = 60 := abs_of_nonneg (by norm_num)
  have hw : (52.05 / (2.285 * Real.pi)) / (0.5 * 2) = 52.05 / (2.285 * Real.pi) := by
    norm_num
  have hwne : 52.05 / (2.285 * Real.pi) ≠ 0 := by positivity
  have hval : (|(60 : ℝ)| - 7.95) / 2.285 / (Real.pi * (52.05 / (2.285 * Real.pi))) + 1
      = 2 := by
    rw [habs]
    rw [div_div]
    rw [show (2.285 : ℝ) * (Real.pi * (52.05 / (2.285 * Real.pi)))
        = 52.05 from by field_simp; ring]
    norm_num
  have heval : adaptive_numtaps (52.05 / (2.285 * Real.pi)) 2 60 = some 3 := by
    unfold adaptive_numtaps kaiserord_numtaps
    rw [hw]
    rw [if_neg (by rw [habs]; norm_num)]
    rw [if_neg hwne]
    rw [hval]
    norm_num
  exact ⟨heval, (adaptive_numtaps_odd _ _ _ _ heval).1⟩

/-- C8 (code bug): at a strictly negative transition width,
`adaptive_numtaps` silently returns the integer 1 instead of failing with an
`InvalidParameter`-kind error — `src/design_fir.py` performs no validation of
`transition_width`. -/
theorem adaptive_numtaps_accepts_negative_width :
    adaptive_numtaps (-(52.05 / (2.285 * Real.pi))) 2 60 = some 1 := by
  have hpi := Real.pi_pos
  have habs : |(60 : ℝ)| = 60 := abs_of_nonneg (by norm_num)
  have hw : (-(52.05 / (2.285 * Real.pi))) / (0.5 * 2)
      = -(52.05 / (2.285 * Real.pi)) := by norm_num
  have hwne : -(52.05 / (2.285 * Real.pi)) ≠ 0 := by
    have : 52.05 / (2.285 * Real.pi) ≠ 0 := by positivity
    simpa using this
  have hval : (|(60 : ℝ)| - 7.95) / 2.285
        / (Real.pi * -(52.05 / (2.285 * Real.pi))) + 1 = 0 := by
    rw [habs]
    rw [div_div]
    rw [show (2.285 : ℝ) * (Real.pi * -(52.05 / (2.285 * Real.pi)))
        = -52.05 from by field_simp; ring]
    norm_num
  unfold adaptive_numtaps kaiserord_numtaps
  rw [hw]
  rw [if_neg (by rw [habs]; norm_num)]
  rw [if_neg hwne]
  rw [hval]
  norm_num

/-! ## Application engine (`main.py`) — FIR side

`apply_fir(signal, taps) = np.convolve(signal, taps, mode="same")`.
`np.convolve` in mode `"same"` computes the full linear convolution (length
`M + N - 1`) and returns its centred slice of length `max(M, N)`, starting at
offset `(min(M, N) - 1) / 2 = ((M + N - 1) - max(M, N)) / 2`. -/

/-- Entry `k` of the full linear convolution of `a` and `v`:
`sum over i of a[i] * v[k - i]`, indices out of range contributing `0`. -/
def convEntry (a v : List ℝ) (k : ℕ) : ℝ :=
  ((List.range a.length).map fun i =>
    if i ≤ k ∧ k - i < v.length then a.getD i 0 * v.getD (k - i) 0 else 0).sum

/-- Model of `np.convolve(a, v, mode="same")`: the centred length-`max(M, N)` slice of
the full linear convolution. -/
def npConvolveSame (a v : List ℝ) : List ℝ :=
  let full := a.length + v.length - 1
  let K := max a.length v.length
  let start := (full - K) / 2
  (List.range K).map fun j => convEntry a v (start + j)

/-- From `main.py`: `apply_fir(signal, taps) = np.convolve(signal, taps, mode="same")`. -/
def apply_fir (signal taps : List ℝ) : List ℝ :=
  npConvolveSame signal taps

/-- C3 counterexample: with a kernel longer than the signal, `apply_fir`
returns `max(M, N)` samples, not `len(signal)` samples. -/
theorem apply_fir_length_counterexample :
    (apply_fir [1] [1, 1, 1]).length ≠ ([1] : List ℝ).length := by
  simp [apply_fir, npConvolveSame]

/-- C3 (amended): `apply_fir` is centred same-mode linear convolution whose
output length is `max(len(signal), len(kernel))`; this equals `len(signal)`
whenever the kernel is no longer than the signal. -/
theorem apply_fir_length (signal kernel : List ℝ) :
    (apply_fir signal kernel).length = max signal.length kernel.length
    ∧ (kernel.length ≤ signal.length →
        (apply_fir signal kernel).length = signal.length) := by
  constructor
  · simp [apply_fir, npConvolveSame]
  · intro h
    simp [apply_fir, npConvolveSame, Nat.max_eq_left h]

/-- Witness for the amended C3 statement at a concrete signal and kernel. -/
theorem apply_fir_length_witness :
    ([1] : List ℝ).length ≤ ([1, 2, 3] : List ℝ).length ∧
      (apply_fir [1, 2, 3] [1]).length = ([1, 2, 3] : List ℝ).length :=
  ⟨by simp, (apply_fir_length [1, 2, 3] [1]).2 (by simp)⟩

/-- Witness for C10 at a concrete cascade, scalars and equal-length signals. -/
theorem apply_iir_linear_witness :
    ([1, 0] : List ℝ).length = ([0, 1] : List ℝ).length ∧
      apply_iir (lincomb 2 3 [1, 0] [0, 1]) [⟨1, 1, 0, 1, 1, 0⟩]
        = lincomb 2 3 (apply_iir [1, 0] [⟨1, 1, 0, 1, 1, 0⟩])
            (apply_iir [0, 1] [⟨1, 1, 0, 1, 1, 0⟩]) :=
  ⟨rfl, apply_iir_linear [⟨1, 1, 0, 1, 1, 0⟩] 2 3 [1, 0] [0, 1] rfl⟩

/-! ## Analytic biquad designer (`src/design_iir.py`) -/

/-- From `src/design_iir.py`: `parametric_eq(center_freq, gain_db, q_factor, fs)`
— the RBJ peaking-filter biquad, normalised by `a0` and returned as a
one-section cascade. -/
def parametric_eq (center_freq gain_db q_factor fs : ℝ) : List Biquad :=
  let A := (10 : ℝ) ^ (gain_db / 40)
  let w0 := 2 * Real.pi * center_freq / fs
  let alpha := Real.sin w0 / (2 * q_factor)
  let b0 := 1 + alpha * A
  let b1 := -2 * Real.cos w0
  let b2 := 1 - alpha * A
  let a0 := 1 + alpha / A
  let a1 := -2 * Real.cos w0
  let a2 := 1 - alpha / A
  [⟨b0 / a0, b1 / a0, b2 / a0, 1, a1 / a0, a2 / a0⟩]

/-- Modelled from the spec: the peaking-filter coefficients §4.3 states for
`parametric_eq`, written from the formulas the spec itself states to be compared with the
source embedding (`A = 10^(gain/40)`, `w0 = 2 pi f0/fs`,
`alpha = sin(w0)/(2 Q)`, `b0 = 1 + alpha A`, `b1 = -2 cos w0`,
`b2 = 1 - alpha A`, `a0 = 1 + alpha/A`, `a1 = -2 cos w0`,
`a2 = 1 - alpha/A`, stored as `(b0/a0, b1/a0, b2/a0, 1, a1/a0, a2/a0)`). -/
def parametric_eq_specFormula (center_freq gain_db q_factor fs : ℝ) :
    List Biquad :=
  let A := (10 : ℝ) ^ (gain_db / 40)
  let w0 := 2 * Real.pi * center_freq / fs
  let alpha := Real.sin w0 / (2 * q_factor)
  [⟨(1 + alpha * A) / (1 + alpha / A),
    (-2 * Real.cos w0) / (1 + alpha / A),
    (1 - alpha * A) / (1 + alpha / A),
    1,
    (-2 * Real.cos w0) / (1 + alpha / A),
    (1 - alpha / A) / (1 + alpha / A)⟩]

/-- C1: `parametric_eq` returns exactly one section, its coefficients are the
normalised RBJ peaking coefficients the spec states, and the stored `a0` is exactly 1. -/
theorem parametric_eq_matches_spec (center_freq gain_db q_factor fs : ℝ) :
    parametric_eq center_freq gain_db q_factor fs
        = parametric_eq_specFormula center_freq gain_db q_factor fs
    ∧ (parametric_eq center_freq gain_db q_factor fs).length = 1
    ∧ ((parametric_eq center_freq gain_db q_factor fs).getD 0
        ⟨0, 0, 0, 0, 0, 0⟩).a0 = 1 :=
  ⟨rfl, rfl, rfl⟩

/-- Stored first-order denominator coefficient `a1/a0` of the zero-gain
parametric EQ section (with `A = 1`). -/
def peqDen1 (center_freq q_factor fs : ℝ) : ℝ :=
  let w0 := 2 * Real.pi * center_freq / fs
  let alpha := Real.sin w0 / (2 * q_factor)
  (-2 * Real.cos w0) / (1 + alpha)

/-- Stored second-order denominator coefficient `a2/a0` of the zero-gain
parametric EQ section (with `A = 1`). -/
def peqDen2 (center_freq q_factor fs : ℝ) : ℝ :=
  let w0 := 2 * Real.pi * center_freq / fs
  let alpha := Real.sin w0 / (2 * q_factor)
  (1 - alpha) / (1 + alpha)

/-- C4: with `gain_db = 0` (so `A = 1`), the numerator
coefficients coincide with its denominator coefficients `(1, a1/a0, a2/a0)`,
so the section is identity-equivalent. -/
theorem parametric_eq_zero_gain (center_freq q_factor fs : ℝ)
    (h1 : 0 < center_freq) (h2 : center_freq < fs / 2) (h3 : 0 < q_factor) :
    parametric_eq center_freq 0 q_factor fs
      = [⟨1, peqDen1 center_freq q_factor fs, peqDen2 center_freq q_factor fs,
          1, peqDen1 center_freq q_factor fs,
          peqDen2 center_freq q_factor fs⟩] := by
  have hfs : 0 < fs := by linarith
  have hw0pos : 0 < 2 * Real.pi * center_freq / fs := by positivity
  have hw0lt : 2 * Real.pi * center_freq / fs < Real.pi := by
    rw [div_lt_iff hfs]
    nlinarith [Real.pi_pos]
  have hsin : 0 < Real.sin (2 * Real.pi * center_freq / fs) :=
    Real.sin_pos_of_pos_of_lt_pi hw0pos hw0lt
  have halpha : 0 < Real.sin (2 * Real.pi * center_freq / fs) / (2 * q_factor) := by
    positivity
  have hne : (1 : ℝ)
      + Real.sin (2 * Real.pi * center_freq / fs) / (2 * q_factor) ≠ 0 := by
    positivity
  simp only [parametric_eq, peqDen1, peqDen2]
  rw [show (0 : ℝ) / 40 = 0 from by norm_num, Real.rpow_zero]
  rw [mul_one, div_one, div_self hne]

/-- Witness for C4 at `center_freq = 1`, `q_factor = 1`, `fs = 4`. -/
theorem parametric_eq_zero_gain_witness :
    (0 : ℝ) < 1 ∧ (1 : ℝ) < 4 / 2 ∧
      parametric_eq 1 0 1 4
        = [⟨1, peqDen1 1 1 4, peqDen2 1 1 4, 1, peqDen1 1 1 4,
            peqDen2 1 1 4⟩] :=
  ⟨by norm_num, by norm_num,
    parametric_eq_zero_gain 1 1 4 (by norm_num) (by norm_num) (by norm_num)⟩

/-- The argument of the square root inside the shelving-filter `alpha`:
`(A + 1/A) * (1/q_factor - 1) + 2` with `A = 10^(gain_db/40)`.  In Python,
`math.sqrt` raises a `ValueError` (math domain error) when this is
negative. -/
def shelfSqrtArg (gain_db q_factor : ℝ) : ℝ :=
  let A := (10 : ℝ) ^ (gain_db / 40)
  (A + 1 / A) * (1 / q_factor - 1) + 2

/-- From `src/design_iir.py`: `shelving_lowshelf(cutoff, gain_db, fs, q_factor)` —
RBJ low-shelf biquad.  Failure paths are modelled as `none`, in source
evaluation order: `ZeroDivisionError` computing `w0` when `fs = 0`;
`ZeroDivisionError` computing `1/q_factor` when `q_factor = 0` (raised before
`math.sqrt` is reached); the `math.sqrt` domain error on a negative radicand;
and `ZeroDivisionError` normalising by `a0` when `a0 = 0`. -/
def shelving_lowshelf (cutoff gain_db fs q_factor : ℝ) : Option (List Biquad) :=
  let A := (10 : ℝ) ^ (gain_db / 40)
  if fs = 0 then none
  else
    let w0 := 2 * Real.pi * cutoff / fs
    if q_factor = 0 then none
    else if shelfSqrtArg gain_db q_factor < 0 then none
    else
      let alpha := Real.sin w0 / 2 * Real.sqrt (shelfSqrtArg gain_db q_factor)
      let b0 := A * ((A + 1) - (A - 1) * Real.cos w0 + 2 * Real.sqrt A * alpha)
      let b1 := 2 * A * ((A - 1) - (A + 1) * Real.cos w0)
      let b2 := A * ((A + 1) - (A - 1) * Real.cos w0 - 2 * Real.sqrt A * alpha)
      let a0 := (A + 1) + (A - 1) * Real.cos w0 + 2 * Real.sqrt A * alpha
      let a1 := -2 * ((A - 1) + (A + 1) * Real.cos w0)
      let a2 := (A + 1) + (A - 1) * Real.cos w0 - 2 * Real.sqrt A * alpha
      if a0 = 0 then none
      else some [⟨b0 / a0, b1 / a0, b2 / a0, 1, a1 / a0, a2 / a0⟩]

/-- From `src/design_iir.py`: `shelving_highshelf(cutoff, gain_db, fs, q_factor)`
— RBJ high-shelf biquad.  Failure paths are modelled as `none`, in source
evaluation order: `ZeroDivisionError` computing `w0` when `fs = 0`;
`ZeroDivisionError` computing `1/q_factor` when `q_factor = 0` (raised before
`math.sqrt` is reached); the `math.sqrt` domain error on a negative radicand;
and `ZeroDivisionError` normalising by `a0` when `a0 = 0`. -/
def shelving_highshelf (cutoff gain_db fs q_factor : ℝ) : Option (List Biquad) :=
  let A := (10 : ℝ) ^ (gain_db / 40)
  if fs = 0 then none
  else
    let w0 := 2 * Real.pi * cutoff / fs
    if q_factor = 0 then none
    else if shelfSqrtArg gain_db q_factor < 0 then none
    else
      let alpha := Real.sin w0 / 2 * Real.sqrt (shelfSqrtArg gain_db q_factor)
      let b0 := A * ((A + 1) + (A - 1) * Real.cos w0 + 2 * Real.sqrt A * alpha)
      let b1 := -2 * A * ((A - 1) + (A + 1) * Real.cos w0)
      let b2 := A * ((A + 1) + (A - 1) * Real.cos w0 - 2 * Real.sqrt A * alpha)
      let a0 := (A + 1) - (A - 1) * Real.cos w0 + 2 * Real.sqrt A * alpha
      let a1 := 2 * ((A - 1) - (A + 1) * Real.cos w0)
      let a2 := (A + 1) - (A - 1) * Real.cos w0 - 2 * Real.sqrt A * alpha
      if a0 = 0 then none
      else some [⟨b0 / a0, b1 / a0, b2 / a0, 1, a1 / a0, a2 / a0⟩]

theorem shelfArg_nonneg_of_between (A : ℝ) (h1 : 1 < A) (h2 : A < 2) :
    0 ≤ (A + 1 / A) * (1 / 5 - 1) + 2 := by
  have hA0 : (0 : ℝ) < A := by linarith
  have h2A : 2 * A ^ 2 - 5 * A + 2 < 0 := by
    nlinarith [mul_pos (show (0 : ℝ) < 2 * A - 1 by linarith)
      (show (0 : ℝ) < 2 - A by linarith)]
  have ht : 1 / A < 5 / 2 - A := by
    rw [div_lt_iff₀ hA0]
    nlinarith [h2A]
  have hsum : A + 1 / A < 5 / 2 := by linarith
  nlinarith [hsum]

theorem shelfArg_neg_of_gt_two (A : ℝ) (h2 : 2 < A) :
    (A + 1 / A) * (1 / 5 - 1) + 2 < 0 := by
  have hA0 : (0 : ℝ) < A := by linarith
  have h2A : 0 < 2 * A ^ 2 - 5 * A + 2 := by
    nlinarith [mul_pos (show (0 : ℝ) < 2 * A - 1 by linarith)
      (show (0 : ℝ) < A - 2 by linarith)]
  have ht : 5 / 2 - A < 1 / A := by
    rw [lt_div_iff₀ hA0]
    nlinarith [h2A]
  have hsum : 5 / 2 < A + 1 / A := by linarith
  nlinarith [hsum]

theorem gain12_A_bounds :
    1 < (10 : ℝ) ^ ((12 : ℝ) / 40) ∧ (10 : ℝ) ^ ((12 : ℝ) / 40) < 2 := by
  have hA0 : (0 : ℝ) < (10 : ℝ) ^ ((12 : ℝ) / 40) :=
    Real.rpow_pos_of_pos (by norm_num) _
  have hpow : ((10 : ℝ) ^ ((12 : ℝ) / 40)) ^ (10 : ℕ) = 1000 := by
    rw [← Real.rpow_natCast ((10 : ℝ) ^ ((12 : ℝ) / 40)) 10,
      ← Real.rpow_mul (by norm_num : (0 : ℝ) ≤ 10)]
    rw [show (12 : ℝ) / 40 * ((10 : ℕ) : ℝ) = ((3 : ℕ) : ℝ) from by
      push_cast; norm_num]
    rw [Real.rpow_natCast]
    norm_num
  constructor
  · refine lt_of_pow_lt_pow_left 10 (le_of_lt hA0) ?_
    rw [hpow]; norm_num
  · refine lt_of_pow_lt_pow_left 10 (by norm_num : (0 : ℝ) ≤ 2) ?_
    rw [hpow]; norm_num

theorem gain13_A_gt_two : 2 < (10 : ℝ) ^ ((13 : ℝ) / 40) := by
  have hA0 : (0 : ℝ) < (10 : ℝ) ^ ((13 : ℝ) / 40) :=
    Real.rpow_pos_of_pos (by norm_num) _
  have hpow : ((10 : ℝ) ^ ((13 : ℝ) / 40)) ^ (40 : ℕ) = 10000000000000 := by
    rw [← Real.rpow_natCast ((10 : ℝ) ^ ((13 : ℝ) / 40)) 40,
      ← Real.rpow_mul (by norm_num : (0 : ℝ) ≤ 10)]
    rw [show (13 : ℝ) / 40 * ((40 : ℕ) : ℝ) = ((13 : ℕ) : ℝ) from by
      push_cast; norm_num]
    rw [Real.rpow_natCast]
    norm_num
  refine lt_of_pow_lt_pow_left 40 (le_of_lt hA0) ?_
  rw [hpow]; norm_num

theorem shelfSqrtArg_gain12_q5 : 0 ≤ shelfSqrtArg 12 5 := by
  obtain ⟨h1, h2⟩ := gain12_A_bounds
  simp only [shelfSqrtArg]
  exact shelfArg_nonneg_of_between _ h1 h2

theorem shelfSqrtArg_gain13_q5 : shelfSqrtArg 13 5 < 0 := by
  have h2 := gain13_A_gt_two
  simp only [shelfSqrtArg]
  exact shelfArg_neg_of_gt_two _ h2

theorem shelving_lowshelf_example_isSome :
    (shelving_lowshelf 1 12 4 5).isSome = true := by
  have hA1 : 1 < (10 : ℝ) ^ ((12 : ℝ) / 40) := gain12_A_bounds.1
  simp only [shelving_lowshelf]
  split_ifs with h1 h2 h3 h4
  · norm_num at h1
  · norm_num at h2
  · exact absurd shelfSqrtArg_gain12_q5 (not_le.mpr h3)
  · exfalso
    rw [show (2 : ℝ) * Real.pi * 1 / 4 = Real.pi / 2 from by ring,
      Real.cos_pi_div_two, Real.sin_pi_div_two] at h4
    have hs1 : (0 : ℝ) ≤ Real.sqrt ((10 : ℝ) ^ ((12 : ℝ) / 40)) :=
      Real.sqrt_nonneg _
    have hs2 : (0 : ℝ) ≤ Real.sqrt (shelfSqrtArg 12 5) := Real.sqrt_nonneg _
    nlinarith [mul_nonneg hs1 hs2]
  · rfl

/-- C9 counterexample: at `q_factor = 5` and `gain_db = 12` — the input the
claim offers as a failing example — the radicand `(A + 1/A)(1/q - 1) + 2` is in
fact non-negative (since `1 < 10^0.3 < 2`), so `shelving_lowshelf` succeeds
and returns a section. -/
theorem shelving_q5_gain12_returns :
    (shelving_lowshelf 1 12 4 5).isSome = true :=
  shelving_lowshelf_example_isSome

/-- C9 (amended): the shelving designers return a section only when
`(A + 1/A)(1/q_factor - 1) + 2 >= 0` with `A = 10^(gain_db/40)`; for
`q_factor > 1` with sufficiently large gain the radicand is negative, the
square root receives a negative argument and the call fails with a domain
error instead of returning coefficients — e.g. `q_factor = 5` with
`gain_db = 13`. -/
theorem shelving_sqrt_domain (cutoff gain_db fs q_factor : ℝ) :
    ((shelving_lowshelf cutoff gain_db fs q_factor).isSome = true →
        0 ≤ shelfSqrtArg gain_db q_factor)
    ∧ ((shelving_highshelf cutoff gain_db fs q_factor).isSome = true →
        0 ≤ shelfSqrtArg gain_db q_factor)
    ∧ shelving_lowshelf cutoff 13 fs 5 = none
    ∧ shelving_highshelf cutoff 13 fs 5 = none := by
  refine ⟨?_, ?_, ?_, ?_⟩
  · intro h
    simp only [shelving_lowshelf] at h
    split_ifs at h with h1 h2 h3 h4
    · simp at h
    · simp at h
    · simp at h
    · simp at h
    · exact not_lt.mp h3
  · intro h
    simp only [shelving_highshelf] at h
    split_ifs at h with h1 h2 h3 h4
    · simp at h
    · simp at h
    · simp at h
    · simp at h
    · exact not_lt.mp h3
  · simp only [shelving_lowshelf]
    split_ifs with h1 h2 h3 h4
    · rfl
    · rfl
    · rfl
    · rfl
    · exact absurd shelfSqrtArg_gain13_q5 h3
  · simp only [shelving_highshelf]
    split_ifs with h1 h2 h3 h4
    · rfl
    · rfl
    · rfl
    · rfl
    · exact absurd shelfSqrtArg_gain13_q5 h3

/-- Witness for C9: the only-when implication exercised at a concrete input
on which `shelving_lowshelf` does return a section. -/
theorem shelving_sqrt_domain_witness :
    (shelving_lowshelf 1 12 4 5).isSome = true ∧ 0 ≤ shelfSqrtArg 12 5 :=
  ⟨shelving_lowshelf_example_isSome,
    (shelving_sqrt_domain 1 12 4 5).1 shelving_lowshelf_example_isSome⟩

/-! ## Classical IIR designers (`src/design_iir.py`) — error behaviour

`butter_lowpass`/`cheby1_lowpass` etc. contain no validation of their own:
they normalise the cutoff by Nyquist and call `scipy.signal.butter` /
`scipy.signal.cheby1` directly, so every bad input surfaces as the scipy
`ValueError` raised inside the synthesis routine.  The model distinguishes a
designer-level `invalidParameter` kind (the taxonomy the spec demands) from
the internal scipy error; the repository code can only ever produce the
latter. -/

/-- How a design call can fail: a descriptive designer-level
`InvalidParameter`-kind error (the taxonomy in §7 of the spec), or a `ValueError`
escaping uncaught from inside the scipy synthesis routine. -/
inductive FilterError where
  | invalidParameter : FilterError
  | scipyValueError : FilterError

/-- The synthesis request a successful scipy IIR design call is made with:
the order and the Nyquist-normalised critical frequency. -/
structure IIRRequest where
  order : ℤ
  wn : ℝ

/-- Model of `scipy.signal.butter(order, wn, btype="lowpass", output="sos")` —
validation behaviour: scipy raises `ValueError` inside `iirfilter`/`buttap`
for a negative order or a digital critical frequency outside `(0, 1)`. -/
def scipy_butter (order : ℤ) (wn : ℝ) : Except FilterError IIRRequest :=
  if order < 0 then Except.error FilterError.scipyValueError
  else if wn ≤ 0 ∨ 1 ≤ wn then Except.error FilterError.scipyValueError
  else Except.ok ⟨order, wn⟩

/-- Model of `scipy.signal.cheby1(order, ripple_db, wn, btype="lowpass",
output="sos")` — validation behaviour: scipy raises `ValueError` inside
`iirfilter`/`cheb1ap` for a negative order, a non-positive ripple, or a
digital critical frequency outside `(0, 1)`. -/
def scipy_cheby1 (order : ℤ) (ripple_db wn : ℝ) : Except FilterError IIRRequest :=
  if order < 0 then Except.error FilterError.scipyValueError
  else if ripple_db ≤ 0 then Except.error FilterError.scipyValueError
  else if wn ≤ 0 ∨ 1 ≤ wn then Except.error FilterError.scipyValueError
  else Except.ok ⟨order, wn⟩

/-- From `src/design_iir.py`: `butter_lowpass(cutoff, fs, order)` — normalises by
Nyquist and calls `scipy.signal.butter`; no validation of its own. -/
def butter_lowpass (cutoff fs : ℝ) (order : ℤ) : Except FilterError IIRRequest :=
  let nyq := fs / 2
  scipy_butter order (cutoff / nyq)

/-- From `src/design_iir.py`: `cheby1_lowpass(cutoff, fs, order, ripple_db)` —
normalises by Nyquist and calls `scipy.signal.cheby1`; no validation of its
own. -/
def cheby1_lowpass (cutoff fs : ℝ) (order : ℤ) (ripple_db : ℝ) :
    Except FilterError IIRRequest :=
  let nyq := fs / 2
  scipy_cheby1 order ripple_db (cutoff / nyq)

/-- C2 (code bug): at `cutoff = fs/2` the designers fail with the scipy
`ValueError` raised inside the synthesis routine, and no input whatsoever can
make them fail with a designer-level `InvalidParameter`-kind error — the
validation the spec demands does not exist in `src/design_iir.py`. -/
theorem iir_designers_never_invalid_parameter :
    butter_lowpass 4000 8000 6 = Except.error FilterError.scipyValueError
    ∧ cheby1_lowpass 4000 8000 6 (1 / 2)
        = Except.error FilterError.scipyValueError
    ∧ (∀ (cutoff fs : ℝ) (order : ℤ),
        butter_lowpass cutoff fs order
          ≠ Except.error FilterError.invalidParameter)
    ∧ (∀ (cutoff fs : ℝ) (order : ℤ) (ripple_db : ℝ),
        cheby1_lowpass cutoff fs order ripple_db
          ≠ Except.error FilterError.invalidParameter) := by
  refine ⟨?_, ?_, ?_, ?_⟩
  · simp only [butter_lowpass, scipy_butter]
    rw [if_neg (by norm_num), if_pos (by norm_num)]
  · simp only [cheby1_lowpass, scipy_cheby1]
    rw [if_neg (by norm_num), if_neg (by norm_num), if_pos (by norm_num)]
  · intro cutoff fs order
    simp only [butter_lowpass, scipy_butter]
    split_ifs <;> simp
  · intro cutoff fs order ripple_db
    simp only [cheby1_lowpass, scipy_cheby1]
    split_ifs <;> simp

end

end AudioFilters
